import Mathlib

/-!
Verification development for the 531 BBB program generator and Hevy sync tool.

The Go sources are embedded shallowly:
* pure helpers (string handling, unit conversion, set conversion, exercise
  resolution) become Lean functions over `String`, `Int` and `Rat`
  (Go `float64` arithmetic is modelled exactly over the rationals);
* the HTTP client's response handling becomes a pure function of the received
  `HttpResponse` together with a decode oracle standing for `json.Unmarshal`;
* the sync orchestrator (`uploadToHevy`) becomes a pure function of the
  initially fetched remote state plus oracles for the outcome of each remote
  mutation, and it additionally returns the ordered trace of remote
  interactions (folder checks, folder creations, routine creates/updates,
  sleeps) so that ordering claims can be stated.
-/

namespace Hevy531

/-! ### String helpers (models of Go `strings` / `strconv` functions) -/

/-- Model of Go `strings.Contains` on character lists: `charsContains l sub`
is true when `sub` occurs contiguously inside `l`.  The empty needle is
contained in everything, as in Go. -/
def charsContains : List Char → List Char → Bool
  | [], sub => sub.isEmpty
  | c :: t, sub => sub.isPrefixOf (c :: t) || charsContains t sub

/-- Go `strings.Contains(s, sub)`. -/
def strContains (s sub : String) : Bool :=
  charsContains s.toList sub.toList

/-- Go `strings.HasSuffix(s, suf)`. -/
def hasSuffix (s suf : String) : Bool :=
  suf.toList.isSuffixOf s.toList

/-- Go `strings.TrimSuffix(s, suf)`: removes one copy of the suffix when
present. -/
def trimSuffix (s suf : String) : String :=
  if hasSuffix s suf then
    String.mk (s.toList.take (s.toList.length - suf.toList.length))
  else s

/-- Value of a nonempty all-digit character list, `none` otherwise. -/
def digitsVal (cs : List Char) : Option Int :=
  if cs ≠ [] ∧ cs.all Char.isDigit then
    some (cs.foldl (fun a c => a * 10 + Int.ofNat (c.toNat - 48)) 0)
  else none

/-- Model of Go `strconv.Atoi` as used with its error ignored: the integer
value of a decimal string with optional sign, and `0` when the string is not
a valid integer (the code ignores the accompanying error). -/
def atoi (s : String) : Int :=
  match s.toList with
  | '-' :: rest =>
    match digitsVal rest with
    | some n => -n
    | none => 0
  | '+' :: rest => (digitsVal rest).getD 0
  | cs => (digitsVal cs).getD 0

/-! ### Data model (hevy/client.go type declarations) -/

/-- Go `type SetType string` with its four declared constants. -/
inductive SetType where
  | warmup
  | normal
  | failure
  | dropset
deriving DecidableEq

def SetTypeWarmup : SetType := SetType.warmup

def SetTypeNormal : SetType := SetType.normal

/-- Go `RepRange` (`Start`, `End` are `*int`). -/
structure RepRange where
  Start : Option Int
  End : Option Int
deriving DecidableEq

/-- Go `RoutineSet` (optional fields are pointers in the source). -/
structure RoutineSet where
  type : SetType
  WeightKg : Option Rat
  Reps : Option Int
  RepRange : Option RepRange
deriving DecidableEq

/-- Go `RoutineExercise`. -/
structure RoutineExercise where
  ExerciseTemplateID : String
  SupersetID : Option Int
  RestSeconds : Option Int
  Notes : Option String
  Sets : List RoutineSet
deriving DecidableEq

/-- Go `CreateRoutineRequest` (`FolderID` is `*int`: omitted for updates). -/
structure CreateRoutineRequest where
  Title : String
  FolderID : Option Int
  Notes : Option String
  Exercises : List RoutineExercise
deriving DecidableEq

/-- Go `Routine` (the echo of a created/updated routine). -/
structure Routine where
  ID : String
  Title : String
deriving DecidableEq

/-- Go `Folder`. -/
structure Folder where
  ID : Int
  Title : String
deriving DecidableEq

/-- Go `RoutineFull` (an element of the `GET /routines` listing). -/
structure RoutineFull where
  ID : String
  Title : String
  FolderID : Option Int
deriving DecidableEq

/-- Go `ExerciseTemplate`; the field `Type` is renamed because `Type` is
reserved in Lean. -/
structure ExerciseTemplate where
  ID : String
  Title : String
  Type' : String
  PrimaryMuscleGroup : String
  IsCustom : Bool
deriving DecidableEq

/-- Go `ExerciseTemplatesResponse`. -/
structure ExerciseTemplatesResponse where
  PageCount : Int
  ExerciseTemplates : List ExerciseTemplate
deriving DecidableEq

/-- Go `FoldersResponse`. -/
structure FoldersResponse where
  PageCount : Int
  RoutineFolders : List Folder
deriving DecidableEq

/-- Go `RoutinesResponse`. -/
structure RoutinesResponse where
  PageCount : Int
  Routines : List RoutineFull
deriving DecidableEq

/-- Go `program.Set` (one prescribed set). -/
structure ProgramSet where
  Exercise : String
  Sets : Int
  Reps : String
  Weight : Rat
  Percentage : Rat
deriving DecidableEq

/-- Go `program.Day`. -/
structure Day where
  Week : Int
  DayNum : Int
  MainLift : String
  Sets : List ProgramSet

/-! ### Association-list model of Go maps

Go maps are modelled as association lists where insertion overwrites the
value of an existing key in place and otherwise appends; lookup returns the
unique value of a key. -/

/-- Insertion into a Go map: overwrite in place or append. -/
def mapInsert {α : Type} (m : List (String × α)) (k : String) (v : α) :
    List (String × α) :=
  if m.any (fun p => p.1 == k) then
    m.map (fun p => if p.1 == k then (k, v) else p)
  else m ++ [(k, v)]

/-- Lookup in a Go map. -/
def mapLookup {α : Type} (m : List (String × α)) (k : String) : Option α :=
  Option.map Prod.snd (m.find? (fun p => p.1 == k))

/-- Lookup in a `Nat`-keyed Go map (the orchestrator's `weekFolders`). -/
def natLookup (m : List (Nat × Int)) (k : Nat) : Option Int :=
  Option.map Prod.snd (m.find? (fun p => p.1 == k))

/-! ### Exercise resolution (hevy/client.go: aliases, mapper, FindTemplate) -/

/-- The static `exerciseAliases` table, verbatim from the source. -/
def exerciseAliases : List (String × List String) :=
  [("squat", ["barbell squat", "squat (barbell)"]),
   ("bench press", ["barbell bench press", "bench press (barbell)"]),
   ("deadlift", ["barbell deadlift", "deadlift (barbell)"]),
   ("overhead press",
    ["overhead press (barbell)", "barbell overhead press",
     "shoulder press (barbell)"]),
   ("barbell row",
    ["bent over row (barbell)", "barbell bent over row", "bent over row"]),
   ("dumbbell press",
    ["dumbbell bench press", "bench press (dumbbell)",
     "dumbbell chest press"]),
   ("dumbbell row",
    ["dumbbell row", "bent over row (dumbbell)", "one arm dumbbell row"]),
   ("leg curl", ["lying leg curl", "leg curl (machine)", "seated leg curl"]),
   ("leg press", ["leg press (machine)", "leg press"]),
   ("tricep pushdown",
    ["tricep pushdown", "triceps pushdown", "cable pushdown"]),
   ("cable fly", ["cable fly", "cable chest fly", "cable crossover"]),
   ("good morning", ["good morning", "good morning (barbell)"]),
   ("hanging leg raise", ["hanging leg raise", "hanging knee raise"]),
   ("back extension",
    ["back extension", "hyperextension", "back extension (machine)"]),
   ("lateral raise",
    ["lateral raise (dumbbell)", "dumbbell lateral raise", "lateral raise"]),
   ("face pull", ["face pull", "face pull (cable)"]),
   ("rear delt fly", ["reverse fly (dumbbell)", "rear delt fly", "reverse fly"]),
   ("pull-up", ["pull up", "pull-up", "pullup"]),
   ("dips", ["dip", "tricep dip", "chest dip"]),
   ("lunges", ["lunge (dumbbell)", "walking lunge", "lunge (barbell)"]),
   ("bulgarian split squat", ["bulgarian split squat", "split squat"])]

/-- Lookup in the alias table. -/
def aliasFor (k : String) : Option (List String) :=
  mapLookup exerciseAliases k

/-- Go `NewExerciseMapper`: the case-insensitive index, a map from lowercase
title to template built by inserting every template in list order. -/
def NewExerciseMapper (templates : List ExerciseTemplate) :
    List (String × ExerciseTemplate) :=
  templates.foldl (fun m t => mapInsert m t.Title.toLower t) []

/-- Go `(*ExerciseMapper).FindTemplate`: exact match on the lowercased name,
then the alias table (first alias present in the index wins), then a
substring fallback over the index, else an error naming the exercise. -/
def FindTemplate (m : List (String × ExerciseTemplate)) (name : String) :
    Except String ExerciseTemplate :=
  let lower := name.toLower
  match mapLookup m lower with
  | some t => Except.ok t
  | none =>
    match (aliasFor lower).bind
        (fun aliases => aliases.findSome? (fun a => mapLookup m a)) with
    | some t => Except.ok t
    | none =>
      match m.find?
          (fun p => strContains p.1 lower || strContains lower p.1) with
      | some p => Except.ok p.2
      | none => Except.error ("no template found for exercise: " ++ name)

/-! ### Unit conversion and set conversion (hevy/converter.go) -/

/-- Go `LbsToKg`. -/
def LbsToKg (lbs : Rat) : Rat := lbs * 0.453592

/-- Go `convertSets`: expands one prescribed set into `set.Sets` identical
remote sets, classifying warmups, converting the weight and translating the
reps notation (AMRAP sets become a rep range). -/
def convertSets (set : ProgramSet) : List RoutineSet :=
  let setType := if 0 < set.Percentage ∧ set.Percentage ≤ 60 then
      SetTypeWarmup
    else SetTypeNormal
  let isAMRAP := hasSuffix set.Reps "+"
  let repsStr := trimSuffix set.Reps "+"
  let reps := atoi repsStr
  let base : RoutineSet :=
    { type := setType, WeightKg := none, Reps := none, RepRange := none }
  let withWeight :=
    if 0 < set.Weight then
      { base with WeightKg := some (LbsToKg set.Weight) }
    else base
  let routineSet :=
    if 0 < reps then
      if isAMRAP then
        let endReps := if reps * 2 < 10 then 10 else reps * 2
        { withWeight with
          RepRange := some { Start := some reps, End := some endReps } }
      else { withWeight with Reps := some reps }
    else withWeight
  List.replicate set.Sets.toNat routineSet

/-- The routine title `fmt.Sprintf("531 BBB W%dD%d - %s", ...)`. -/
def dayTitle (day : Day) : String :=
  "531 BBB W" ++ toString day.Week ++ "D" ++ toString day.DayNum ++ " - "
    ++ day.MainLift

/-- The grouping loop of Go `ConvertDayToRoutine`: walks the ordered sets,
closing the current exercise block whenever the exercise name changes.  The
`none`-current case with an unchanged name reflects the nil-pointer
dereference the Go code would perform when the very first set has the empty
exercise name. -/
def convertDayAux (find : String → Except String ExerciseTemplate) :
    List ProgramSet → String → Option RoutineExercise →
    List RoutineExercise → Except String (List RoutineExercise)
  | [], _, cur, acc => Except.ok (acc ++ cur.toList)
  | s :: rest, currentName, cur, acc =>
    if s.Exercise = currentName then
      match cur with
      | some c =>
        convertDayAux find rest currentName
          (some { c with Sets := c.Sets ++ convertSets s }) acc
      | none => Except.error "panic: nil routine exercise"
    else
      match find s.Exercise with
      | Except.error e =>
        Except.error ("failed to find template for " ++ s.Exercise ++ ": " ++ e)
      | Except.ok t =>
        convertDayAux find rest s.Exercise
          (some { ExerciseTemplateID := t.ID, SupersetID := none,
                  RestSeconds := none, Notes := none, Sets := convertSets s })
          (acc ++ cur.toList)

/-- Go `ConvertDayToRoutine`. -/
def ConvertDayToRoutine (day : Day)
    (mapper : List (String × ExerciseTemplate)) :
    Except String CreateRoutineRequest :=
  match convertDayAux (FindTemplate mapper) day.Sets "" none [] with
  | Except.error e => Except.error e
  | Except.ok exercises =>
    Except.ok { Title := dayTitle day, FolderID := none, Notes := none,
                Exercises := exercises }

/-! ### Remote client response handling (hevy/client.go)

Each remote operation's handling of an HTTP response is embedded as a pure
function of the received status/body together with a decode oracle standing
for `json.Unmarshal` into the operation's response struct (`none` meaning the
unmarshal returned an error).  The transport itself is outside the embedding.
-/

/-- A received HTTP response. -/
structure HttpResponse where
  status : Nat
  body : String
deriving DecidableEq

/-- Client-level errors: the `API error (status %d): %s` failure for a bad
status, and the decode failures that are surfaced as errors. -/
inductive ClientError where
  | apiError (status : Nat) (body : String)
  | decodeFailure (msg : String)
deriving DecidableEq

/-- `GetExerciseTemplates`, handling of one page's response. -/
def getTemplatesPage (resp : HttpResponse)
    (decode : String → Option ExerciseTemplatesResponse) :
    Except ClientError ExerciseTemplatesResponse :=
  if resp.status ≠ 200 then
    Except.error (ClientError.apiError resp.status resp.body)
  else
    match decode resp.body with
    | some r => Except.ok r
    | none => Except.error (ClientError.decodeFailure "failed to decode response")

/-- `GetFolders`, handling of one page's response. -/
def getFoldersPage (resp : HttpResponse)
    (decode : String → Option FoldersResponse) :
    Except ClientError FoldersResponse :=
  if resp.status ≠ 200 then
    Except.error (ClientError.apiError resp.status resp.body)
  else
    match decode resp.body with
    | some r => Except.ok r
    | none => Except.error (ClientError.decodeFailure "failed to decode response")

/-- `GetRoutines`, handling of one page's response. -/
def getRoutinesPage (resp : HttpResponse)
    (decode : String → Option RoutinesResponse) :
    Except ClientError RoutinesResponse :=
  if resp.status ≠ 200 then
    Except.error (ClientError.apiError resp.status resp.body)
  else
    match decode resp.body with
    | some r => Except.ok r
    | none => Except.error (ClientError.decodeFailure "failed to decode response")

/-- `CreateRoutine`, handling of the response: 201 and 200 are accepted, and
a decode failure of the echoed routine degrades to a placeholder carrying
only the title. -/
def createRoutineHandle (routine : CreateRoutineRequest) (resp : HttpResponse)
    (decode : String → Option Routine) : Except ClientError Routine :=
  if resp.status ≠ 201 ∧ resp.status ≠ 200 then
    Except.error (ClientError.apiError resp.status resp.body)
  else
    match decode resp.body with
    | some r => Except.ok r
    | none => Except.ok { ID := "", Title := routine.Title }

/-- `CreateFolder`, handling of the response: 201 and 200 are accepted, but a
decode failure of the echoed folder is surfaced as an error (the folder ID is
needed downstream). -/
def createFolderHandle (_title : String) (resp : HttpResponse)
    (decode : String → Option Folder) : Except ClientError Folder :=
  if resp.status ≠ 201 ∧ resp.status ≠ 200 then
    Except.error (ClientError.apiError resp.status resp.body)
  else
    match decode resp.body with
    | some f => Except.ok f
    | none =>
      Except.error (ClientError.decodeFailure "failed to decode folder response")

/-- `UpdateRoutine`, handling of the response: only 200 is accepted, and a
decode failure of the echoed routine degrades to a placeholder carrying only
the title. -/
def updateRoutineHandle (routine : CreateRoutineRequest) (resp : HttpResponse)
    (decode : String → Option Routine) : Except ClientError Routine :=
  if resp.status ≠ 200 then
    Except.error (ClientError.apiError resp.status resp.body)
  else
    match decode resp.body with
    | some r => Except.ok r
    | none => Except.ok { ID := "", Title := routine.Title }

/-! ### Sync orchestrator (main.go uploadToHevy, lines 114-217)

The sync portion of `uploadToHevy` (everything after the initial fetches) is
embedded as a pure function of
* the folders and routines fetched once at the start,
* the ordered routine payloads to sync,
* an oracle `createFolder` for the outcome of each `POST /routine_folders`,
* an oracle `op` giving, for routine index `i` and 0-indexed attempt `a`,
  the error (`some msg`, the Go error text) or success (`none`) of that
  attempt's create/update call.

The function returns the Go function's result (error or the created/updated
counts) together with the ordered trace of its remote interactions and
sleeps. -/

/-- One remote interaction or sleep of the orchestrator, in order. -/
inductive SyncEvent where
  | folderCheck (title : String)
  | folderCreate (title : String)
  | routineUpdate (idx : Nat) (id : String) (req : CreateRoutineRequest)
  | routineCreate (idx : Nat) (req : CreateRoutineRequest)
  | sleepSecs (n : Nat)
  | sleepMs (n : Nat)
deriving DecidableEq

/-- Go `isRateLimitError`: a non-nil error whose text contains "429" or
"rate limit" (case-sensitive substring). -/
def isRateLimitError : Option String → Bool
  | none => false
  | some s => strContains s "429" || strContains s "rate limit"

/-- The retry loop's break condition `err == nil || !isRateLimitError(err)`. -/
def stopCond (e : Option String) : Bool :=
  e.isNone || !(isRateLimitError e)

/-- The remote call a routine sync attempt performs: an update (with the
folder reference cleared, as the copy `updateRoutine` does) when the title
was found in the routine map, a create (folder reference intact) otherwise. -/
def syncOpEvent (i : Nat) (existingID : Option String)
    (routine : CreateRoutineRequest) : SyncEvent :=
  match existingID with
  | some id => SyncEvent.routineUpdate i id { routine with FolderID := none }
  | none => SyncEvent.routineCreate i routine

/-- The retry loop `for attempt := 0; attempt < 5; attempt++` of
`uploadToHevy`: before every attempt with `attempt > 0` it sleeps
`10 * 2^attempt` seconds, then performs the create/update, and it stops as
soon as the break condition holds or the attempts are exhausted.  The second
`Nat` argument is the number of loop iterations that may still run
(`5 - attempt`); it is `5` at the top-level call. -/
def syncOneAux (i : Nat) (existingID : Option String)
    (routine : CreateRoutineRequest) (op : Nat → Option String) :
    Nat → Nat → Option String × List SyncEvent
  | _, 0 => (none, [])
  | attempt, rem + 1 =>
    let sleeps : List SyncEvent :=
      if 0 < attempt then [SyncEvent.sleepSecs (10 * 2 ^ attempt)] else []
    let ev := syncOpEvent i existingID routine
    let err := op attempt
    if rem = 0 then (err, sleeps ++ [ev])
    else if stopCond err then (err, sleeps ++ [ev])
    else
      match syncOneAux i existingID routine op (attempt + 1) rem with
      | (e2, tr2) => (e2, sleeps ++ [ev] ++ tr2)

/-- The weekly folder title `fmt.Sprintf("531 BBB Week %d", week)`. -/
def weekFolderName (week : Nat) : String :=
  "531 BBB Week " ++ toString week

/-- `folderByName`: folder title to ID, built by inserting the fetched
folders in order. -/
def buildFolderByName (fs : List Folder) : List (String × Int) :=
  fs.foldl (fun m f => mapInsert m f.Title f.ID) []

/-- `routineByTitle`: routine title to ID, built by inserting the fetched
routines in order. -/
def buildRoutineByTitle (rs : List RoutineFull) : List (String × String) :=
  rs.foldl (fun m r => mapInsert m r.Title r.ID) []

/-- The folder setup loop `for week := 1; week <= 4; week++`: for each week
(the list argument is `[1, 2, 3, 4]` at the top-level call), check the folder
map for the week's title; reuse the ID on a hit, otherwise create the folder,
aborting the sync when creation fails.  Returns the week-to-folder-ID map and
the trace of checks and creations. -/
def setupFoldersAux (folderByName : List (String × Int))
    (createFolder : String → Except String Folder) :
    List Nat → Except String (List (Nat × Int)) × List SyncEvent
  | [] => (Except.ok [], [])
  | w :: ws =>
    match mapLookup folderByName (weekFolderName w) with
    | some fid =>
      match setupFoldersAux folderByName createFolder ws with
      | (Except.error e, tr) =>
        (Except.error e, SyncEvent.folderCheck (weekFolderName w) :: tr)
      | (Except.ok l, tr) =>
        (Except.ok ((w, fid) :: l),
         SyncEvent.folderCheck (weekFolderName w) :: tr)
    | none =>
      match createFolder (weekFolderName w) with
      | Except.error e =>
        (Except.error ("failed to create folder " ++ weekFolderName w ++ ": " ++ e),
         [SyncEvent.folderCheck (weekFolderName w),
          SyncEvent.folderCreate (weekFolderName w)])
      | Except.ok f =>
        match setupFoldersAux folderByName createFolder ws with
        | (Except.error e, tr) =>
          (Except.error e,
           SyncEvent.folderCheck (weekFolderName w)
             :: SyncEvent.folderCreate (weekFolderName w) :: tr)
        | (Except.ok l, tr) =>
          (Except.ok ((w, f.ID) :: l),
           SyncEvent.folderCheck (weekFolderName w)
             :: SyncEvent.folderCreate (weekFolderName w) :: tr)

/-- The routine sync loop `for i, routine := range routines`: derive the week
from the index, set the payload's folder reference, decide create vs update
by the title map, run the retry loop, abort on a surviving error, count the
outcome and pause 300 ms. -/
def syncRoutinesAux (routineByTitle : List (String × String))
    (weekFolders : List (Nat × Int)) (op : Nat → Nat → Option String) :
    Nat → List CreateRoutineRequest →
    Except String (Nat × Nat) × List SyncEvent
  | _, [] => (Except.ok (0, 0), [])
  | i, r :: rs =>
    match syncOneAux i (mapLookup routineByTitle r.Title)
        { r with FolderID := some ((natLookup weekFolders (i / 4 + 1)).getD 0) }
        (op i) 0 5 with
    | (some e, trOne) =>
      (Except.error ("failed to sync routine " ++ r.Title ++ ": " ++ e), trOne)
    | (none, trOne) =>
      match syncRoutinesAux routineByTitle weekFolders op (i + 1) rs with
      | (Except.error e, trRest) =>
        (Except.error e, trOne ++ [SyncEvent.sleepMs 300] ++ trRest)
      | (Except.ok (c, u), trRest) =>
        match mapLookup routineByTitle r.Title with
        | some _ =>
          (Except.ok (c, u + 1), trOne ++ [SyncEvent.sleepMs 300] ++ trRest)
        | none =>
          (Except.ok (c + 1, u), trOne ++ [SyncEvent.sleepMs 300] ++ trRest)

/-- The sync portion of `uploadToHevy`: build the lookup maps, ensure the
four weekly folders, then sync every routine in input order, reporting the
created and updated counts. -/
def uploadSync (existingFolders : List Folder)
    (existingRoutines : List RoutineFull)
    (routines : List CreateRoutineRequest)
    (createFolder : String → Except String Folder)
    (op : Nat → Nat → Option String) :
    Except String (Nat × Nat) × List SyncEvent :=
  match setupFoldersAux (buildFolderByName existingFolders) createFolder
      [1, 2, 3, 4] with
  | (Except.error e, tr) => (Except.error e, tr)
  | (Except.ok weekFolders, tr) =>
    match syncRoutinesAux (buildRoutineByTitle existingRoutines) weekFolders
        op 0 routines with
    | (res, tr2) => (res, tr ++ tr2)

/-! ### Statement-side definitions

The definitions below are used only to state the verified properties; they
spell out, in the spec's terms, what the orchestrator is claimed to do. -/

/-- The ID the orchestrator is expected to use for week `w`: the existing
folder's ID under exact title match, else the ID of the folder the
`createFolder` oracle yields for that title. -/
def expectedFolderID (folderByName : List (String × Int))
    (createFolder : String → Except String Folder) (w : Nat) : Int :=
  match mapLookup folderByName (weekFolderName w) with
  | some fid => fid
  | none =>
    match createFolder (weekFolderName w) with
    | Except.ok f => f.ID
    | Except.error _ => 0

/-- The expected folder-phase trace: for each listed week, one existence
check, followed by one creation exactly when the title is absent from the
fetched folders. -/
def setupTrace (folderByName : List (String × Int)) (ws : List Nat) :
    List SyncEvent :=
  ws.flatMap (fun w =>
    SyncEvent.folderCheck (weekFolderName w) ::
      (if (mapLookup folderByName (weekFolderName w)).isSome then []
       else [SyncEvent.folderCreate (weekFolderName w)]))

/-- Whether an event is a folder check or folder creation. -/
def isFolderEvent : SyncEvent → Bool
  | SyncEvent.folderCheck _ => true
  | SyncEvent.folderCreate _ => true
  | _ => false

/-- The events of one retry attempt `a`: the backoff sleep (for `a > 0`)
followed by the remote call. -/
def retryStep (i : Nat) (existingID : Option String)
    (routine : CreateRoutineRequest) (a : Nat) : List SyncEvent :=
  (if 0 < a then [SyncEvent.sleepSecs (10 * 2 ^ a)] else [])
    ++ [syncOpEvent i existingID routine]

/-- The full trace of a retry loop that runs attempts `0 .. k`. -/
def retryTrace (i : Nat) (existingID : Option String)
    (routine : CreateRoutineRequest) (k : Nat) : List SyncEvent :=
  (List.range (k + 1)).flatMap (retryStep i existingID routine)

/-! ### Verified properties, stated

Each claim's property is packaged as a `Prop`-valued definition so the claim
theorems below can instantiate them directly. -/

/-- Property for the set-expansion claim: a prescribed set with `Sets = N`
expands to exactly `N` remote sets, all identical, whose reps fields follow
the parsed reps notation: a rep range `[reps, max (reps * 2) 10]` for
open-ended (AMRAP) notations with positive reps, a plain reps count for
closed notations with positive reps, and neither field when the parse
yields `0`. -/
def setExpansionSpec (s : ProgramSet) (N : Nat) : Prop :=
  (convertSets s).length = N ∧
  (∀ t1, t1 ∈ convertSets s → ∀ t2, t2 ∈ convertSets s → t1 = t2) ∧
  (∀ t, t ∈ convertSets s →
    (hasSuffix s.Reps "+" = true → 0 < atoi (trimSuffix s.Reps "+") →
      t.RepRange = some { Start := some (atoi (trimSuffix s.Reps "+")),
                          End := some (max (atoi (trimSuffix s.Reps "+") * 2) 10) } ∧
      t.Reps = none) ∧
    (hasSuffix s.Reps "+" = false → 0 < atoi (trimSuffix s.Reps "+") →
      t.Reps = some (atoi (trimSuffix s.Reps "+")) ∧ t.RepRange = none) ∧
    (atoi (trimSuffix s.Reps "+") = 0 →
      t.Reps = none ∧ t.RepRange = none))

/-- Property for the warmup-classification claim: every remote set produced
from a prescribed set is a warmup exactly when the percentage lies in
`(0, 60]`, and normal otherwise (zero and over-60 percentages included). -/
def warmupClassSpec (s : ProgramSet) : Prop :=
  ∀ t, t ∈ convertSets s →
    (0 < s.Percentage ∧ s.Percentage ≤ 60 → t.type = SetType.warmup) ∧
    (s.Percentage = 0 ∨ 60 < s.Percentage → t.type = SetType.normal) ∧
    (¬(0 < s.Percentage ∧ s.Percentage ≤ 60) → t.type = SetType.normal)

/-- Property for the weight-conversion claim: the remote sets carry a weight
field exactly when the prescribed weight is positive, and then its value is
the weight in pounds times the constant `0.453592 = 453592 / 1000000`. -/
def weightFieldSpec (s : ProgramSet) : Prop :=
  LbsToKg s.Weight = s.Weight * (453592 / 1000000 : Rat) ∧
  ∀ t, t ∈ convertSets s →
    (0 < s.Weight → t.WeightKg = some (s.Weight * (453592 / 1000000 : Rat))) ∧
    (s.Weight ≤ 0 → t.WeightKg = none)

/-- Property for the empty-day claim: a day with no sets converts, for every
resolver (so without consulting it), to a payload with the formatted title,
no folder reference and an empty exercise list. -/
def emptyDaySpec (day : Day) (mapper : List (String × ExerciseTemplate)) : Prop :=
  ConvertDayToRoutine day mapper =
    Except.ok { Title := "531 BBB W" ++ toString day.Week ++ "D"
                  ++ toString day.DayNum ++ " - " ++ day.MainLift,
                FolderID := none, Notes := none, Exercises := [] } ∧
  ∀ mapper2, ConvertDayToRoutine day mapper = ConvertDayToRoutine day mapper2

/-- Property for the resolution claim: the three stages of `FindTemplate` in
order (exact case-insensitive match, first catalog-present alias, substring
fallback), and failure with an error naming the exercise exactly when all
three stages miss. -/
def resolveSpec (m : List (String × ExerciseTemplate)) (name : String) : Prop :=
  (∀ t, mapLookup m name.toLower = some t →
    FindTemplate m name = Except.ok t) ∧
  (mapLookup m name.toLower = none →
    ∀ pre a post, aliasFor name.toLower = some (pre ++ a :: post) →
      (∀ x, x ∈ pre → mapLookup m x = none) →
      ∀ t, mapLookup m a = some t →
      FindTemplate m name = Except.ok t) ∧
  (mapLookup m name.toLower = none →
    (∀ al, aliasFor name.toLower = some al → ∀ a, a ∈ al → mapLookup m a = none) →
    (∃ p, p ∈ m ∧ (strContains p.1 name.toLower = true ∨
                   strContains name.toLower p.1 = true)) →
    ∃ t, FindTemplate m name = Except.ok t ∧
      ∃ key, (key, t) ∈ m ∧ (strContains key name.toLower = true ∨
                             strContains name.toLower key = true)) ∧
  (FindTemplate m name = Except.error ("no template found for exercise: " ++ name)
    ↔ (mapLookup m name.toLower = none ∧
       (∀ al, aliasFor name.toLower = some al →
         ∀ a, a ∈ al → mapLookup m a = none) ∧
       (∀ p, p ∈ m → strContains p.1 name.toLower = false ∧
         strContains name.toLower p.1 = false)))

/-- Property for the amended decode-tolerance claim: on a success status with
a failing decode, routine creation and routine update still succeed with a
placeholder resource carrying only the title, while folder creation fails
with a decode error. -/
def decodeToleranceSpec (resp : HttpResponse) : Prop :=
  ∀ (routine : CreateRoutineRequest) (dec : String → Option Routine)
    (decF : String → Option Folder) (title : String),
    ((resp.status = 200 ∨ resp.status = 201) → dec resp.body = none →
      createRoutineHandle routine resp dec =
        Except.ok { ID := "", Title := routine.Title }) ∧
    (resp.status = 200 → dec resp.body = none →
      updateRoutineHandle routine resp dec =
        Except.ok { ID := "", Title := routine.Title }) ∧
    ((resp.status = 200 ∨ resp.status = 201) → decF resp.body = none →
      createFolderHandle title resp decF =
        Except.error (ClientError.decodeFailure "failed to decode folder response"))

/-- Property for the amended status-code claim: every operation fails with an
API error carrying the status and body exactly when the status is outside
its accepted set; the accepted set is `{200}` for the three listings and for
routine update, and `{200, 201}` for routine creation and folder creation. -/
def statusCodeSpec (resp : HttpResponse) : Prop :=
  ∀ (decT : String → Option ExerciseTemplatesResponse)
    (decFs : String → Option FoldersResponse)
    (decRs : String → Option RoutinesResponse)
    (decR : String → Option Routine) (decF : String → Option Folder)
    (routine : CreateRoutineRequest) (title : String),
    (getTemplatesPage resp decT =
        Except.error (ClientError.apiError resp.status resp.body)
      ↔ resp.status ≠ 200) ∧
    (getFoldersPage resp decFs =
        Except.error (ClientError.apiError resp.status resp.body)
      ↔ resp.status ≠ 200) ∧
    (getRoutinesPage resp decRs =
        Except.error (ClientError.apiError resp.status resp.body)
      ↔ resp.status ≠ 200) ∧
    (updateRoutineHandle routine resp decR =
        Except.error (ClientError.apiError resp.status resp.body)
      ↔ resp.status ≠ 200) ∧
    (createRoutineHandle routine resp decR =
        Except.error (ClientError.apiError resp.status resp.body)
      ↔ (resp.status ≠ 200 ∧ resp.status ≠ 201)) ∧
    (createFolderHandle title resp decF =
        Except.error (ClientError.apiError resp.status resp.body)
      ↔ (resp.status ≠ 200 ∧ resp.status ≠ 201))

/-- Property for the retry-policy claim: the retry loop stops at the first
attempt `k` whose outcome satisfies the break condition (success or a
non-rate-limit error), `k` never exceeds `4` (at most five attempts), the
loop's result is attempt `k`'s outcome, its trace interleaves the
`10 * 2 ^ a`-second backoff sleeps before every attempt `a > 0`; rate-limit
detection is exactly the case-sensitive substring test; and an error
surviving the loop aborts the sync with the wrapped error. -/
def retryPolicySpec (i : Nat) (existingID : Option String)
    (routine : CreateRoutineRequest) (op : Nat → Option String) : Prop :=
  (∃ k, k ≤ 4 ∧
    (∀ j, j < k → stopCond (op j) = false) ∧
    (stopCond (op k) = true ∨ k = 4) ∧
    syncOneAux i existingID routine op 0 5 =
      (op k, retryTrace i existingID routine k)) ∧
  (∀ e, isRateLimitError e = true ↔
    ∃ s, e = some s ∧ (strContains s "429" = true ∨
                       strContains s "rate limit" = true)) ∧
  (∀ e, stopCond e = true ↔ (e = none ∨ isRateLimitError e = false)) ∧
  (∀ (routineByTitle : List (String × String))
     (weekFolders : List (Nat × Int)) (ops : Nat → Nat → Option String)
     (rs : List CreateRoutineRequest) (e : String),
    (syncOneAux i (mapLookup routineByTitle routine.Title)
        { routine with
          FolderID := some ((natLookup weekFolders (i / 4 + 1)).getD 0) }
        (ops i) 0 5).1 = some e →
    (syncRoutinesAux routineByTitle weekFolders ops i (routine :: rs)).1 =
      Except.error ("failed to sync routine " ++ routine.Title ++ ": " ++ e))

/-- Property for the orchestration claim, for a successful sync reporting
`c` created and `u` updated: the counts equal the numbers of payloads whose
titles are absent from / present in the routine map fetched at the start;
the trace opens with exactly one folder-existence check per week 1..4 (each
followed by a creation exactly when the title was absent), all before any
routine operation; and each payload, by input order, is updated under its
existing ID when its title is in the map and otherwise created carrying the
folder ID of week `i / 4 + 1`. -/
def syncReportSpec (existingFolders : List Folder)
    (existingRoutines : List RoutineFull)
    (routines : List CreateRoutineRequest)
    (createFolder : String → Except String Folder)
    (op : Nat → Nat → Option String) (c u : Nat) : Prop :=
  u = (routines.filter
        (fun r => (mapLookup (buildRoutineByTitle existingRoutines) r.Title).isSome)).length ∧
  c = (routines.filter
        (fun r => (mapLookup (buildRoutineByTitle existingRoutines) r.Title).isNone)).length ∧
  ∃ trR,
    (uploadSync existingFolders existingRoutines routines createFolder op).2 =
      setupTrace (buildFolderByName existingFolders) [1, 2, 3, 4] ++ trR ∧
    (∀ e, e ∈ trR → isFolderEvent e = false) ∧
    (∀ j (hj : j < routines.length),
      (mapLookup (buildRoutineByTitle existingRoutines)
          (routines.get ⟨j, hj⟩).Title = none →
        SyncEvent.routineCreate j
          { routines.get ⟨j, hj⟩ with
            FolderID := some (expectedFolderID (buildFolderByName existingFolders)
              createFolder (j / 4 + 1)) } ∈ trR) ∧
      (∀ id, mapLookup (buildRoutineByTitle existingRoutines)
          (routines.get ⟨j, hj⟩).Title = some id →
        SyncEvent.routineUpdate j id
          { routines.get ⟨j, hj⟩ with FolderID := none } ∈ trR))

/-- Whether an event keeps the create/update folder-reference invariant:
updates are sent with the folder reference cleared, creates with a folder
reference present. -/
def folderFieldOK : SyncEvent → Prop
  | SyncEvent.routineUpdate _ _ req => req.FolderID = none
  | SyncEvent.routineCreate _ req => ∃ fid, req.FolderID = some fid
  | _ => True

/-- Property for the folder-reference claim: every routine operation the
orchestrator ever emits keeps the create/update folder-reference
invariant. -/
def sentFolderSpec (existingFolders : List Folder)
    (existingRoutines : List RoutineFull)
    (routines : List CreateRoutineRequest)
    (createFolder : String → Except String Folder)
    (op : Nat → Nat → Option String) : Prop :=
  ∀ e, e ∈ (uploadSync existingFolders existingRoutines routines createFolder op).2 →
    folderFieldOK e

/-! ### Helper lemmas about the converter -/

/-- Every remote set produced by `convertSets` has the fields the conversion
rules dictate: type by percentage band, weight when positive, and the reps
fields by AMRAP-ness and the parsed reps count. -/
theorem convertSets_fields (s : ProgramSet) (t : RoutineSet)
    (ht : t ∈ convertSets s) :
    t.type = (if 0 < s.Percentage ∧ s.Percentage ≤ 60 then SetType.warmup
              else SetType.normal) ∧
    t.WeightKg = (if 0 < s.Weight then some (LbsToKg s.Weight) else none) ∧
    t.Reps = (if 0 < atoi (trimSuffix s.Reps "+") ∧ hasSuffix s.Reps "+" = false
              then some (atoi (trimSuffix s.Reps "+")) else none) ∧
    t.RepRange = (if 0 < atoi (trimSuffix s.Reps "+") ∧ hasSuffix s.Reps "+" = true
              then some { Start := some (atoi (trimSuffix s.Reps "+")),
                          End := some (if atoi (trimSuffix s.Reps "+") * 2 < 10
                                       then 10
                                       else atoi (trimSuffix s.Reps "+") * 2) }
              else none) := by
  simp only [convertSets, List.mem_replicate] at ht
  obtain ⟨-, rfl⟩ := ht
  refine ⟨?_, ?_, ?_, ?_⟩ <;> split_ifs <;>
    simp_all [SetTypeWarmup, SetTypeNormal]

/-- `convertSets` yields `Sets.toNat` remote sets. -/
theorem convertSets_length (s : ProgramSet) :
    (convertSets s).length = s.Sets.toNat := by
  simp [convertSets]

/-- All remote sets produced from one prescribed set are equal. -/
theorem convertSets_pairwise (s : ProgramSet) :
    ∀ t1, t1 ∈ convertSets s → ∀ t2, t2 ∈ convertSets s → t1 = t2 := by
  intro t1 h1 t2 h2
  simp only [convertSets, List.mem_replicate] at h1 h2
  rw [h1.2, h2.2]

/-- On integers, the source's clamp `if r * 2 < 10 then 10 else r * 2` is
`max (r * 2) 10`. -/
theorem clamp_eq_max (r : Int) :
    (if r * 2 < 10 then 10 else r * 2) = max (r * 2) 10 := by
  rcases lt_or_le (r * 2) 10 with h | h
  · rw [if_pos h, max_eq_right h.le]
  · rw [if_neg (not_lt.mpr h), max_eq_left h]

/-! ### Claim theorems: converter -/

/-- Claim C6: a prescribed set with `setCount = N` converts to exactly `N`
identical remote sets whose reps fields follow the parsed notation: AMRAP
notations with positive reps give `repRange = [reps, max (reps * 2) 10]` and
no plain reps, closed notations with positive reps give plain reps and no
range, and a parse of `0` (including non-numeric remainders) gives
neither field. -/
theorem convertSets_expansion (s : ProgramSet) (N : Nat)
    (h : s.Sets = (N : Int)) : setExpansionSpec s N := by
  refine ⟨?_, convertSets_pairwise s, ?_⟩
  · rw [convertSets_length, h, Int.toNat_natCast]
  · intro t ht
    obtain ⟨-, -, hr, hrr⟩ := convertSets_fields s t ht
    refine ⟨fun hA hpos => ⟨?_, ?_⟩, fun hA hpos => ⟨?_, ?_⟩, fun h0 => ⟨?_, ?_⟩⟩
    · rw [hrr, if_pos ⟨hpos, hA⟩, clamp_eq_max]
    · rw [hr, if_neg (by simp [hA])]
    · rw [hr, if_pos ⟨hpos, hA⟩]
    · rw [hrr, if_neg (by simp [hA])]
    · rw [hr, if_neg (by simp [h0])]
    · rw [hrr, if_neg (by simp [h0])]

/-- Witness for C6: the prescribed set `3 x "5+"` at 135 lbs expands to three
identical sets. -/
theorem convertSets_expansion_witness :
    setExpansionSpec
      { Exercise := "Squat", Sets := 3, Reps := "5+", Weight := 135,
        Percentage := 85 } 3 :=
  convertSets_expansion _ 3 rfl

/-- Claim C7: a remote set is a warmup exactly when the prescribed
percentage lies in `(0, 60]`; zero or over-60 percentages give a normal
set. -/
theorem convertSets_warmup_classification (s : ProgramSet) :
    warmupClassSpec s := by
  intro t ht
  obtain ⟨hty, -, -, -⟩ := convertSets_fields s t ht
  refine ⟨fun h => by rw [hty, if_pos h], fun h => ?_,
    fun h => by rw [hty, if_neg h]⟩
  rcases h with h | h
  · rw [hty, if_neg (by simp [h])]
  · rw [hty, if_neg (fun hc => absurd hc.2 (not_le.mpr h))]

/-- Witness for C7: a set at 40 percent is a warmup (via the claim theorem
applied to a concrete accessory set it also classifies the zero-percentage
case as normal). -/
theorem convertSets_warmup_classification_witness :
    warmupClassSpec
      { Exercise := "Squat", Sets := 1, Reps := "5", Weight := 95,
        Percentage := 40 } :=
  convertSets_warmup_classification _

/-- Claim C8: remote sets carry a weight exactly when the prescribed weight
is positive, and the value is the weight in pounds times the exact constant
`0.453592`. -/
theorem convertSets_weight_conversion (s : ProgramSet) : weightFieldSpec s := by
  have hconst : LbsToKg s.Weight = s.Weight * (453592 / 1000000 : Rat) := by
    rw [LbsToKg]
    norm_num
  refine ⟨hconst, ?_⟩
  intro t ht
  obtain ⟨-, hw, -, -⟩ := convertSets_fields s t ht
  exact ⟨fun h => by rw [hw, if_pos h, hconst],
    fun h => by rw [hw, if_neg (not_lt.mpr h)]⟩

/-- Witness for C8: the 135-pound set converts with
`weight_kg = 135 * 0.453592`. -/
theorem convertSets_weight_conversion_witness :
    weightFieldSpec
      { Exercise := "Bench Press", Sets := 5, Reps := "10", Weight := 135,
        Percentage := 0 } :=
  convertSets_weight_conversion _

/-- Claim C10: a training day with no sets converts, under every resolver,
to a payload with the formatted title, no folder reference and an empty
exercise-block list (in particular the resolver is never consulted). -/
theorem convertDay_empty (day : Day) (mapper : List (String × ExerciseTemplate))
    (h : day.Sets = []) : emptyDaySpec day mapper := by
  constructor
  · simp [ConvertDayToRoutine, convertDayAux, h, dayTitle]
  · intro m2
    simp [ConvertDayToRoutine, convertDayAux, h]

/-- Witness for C10: week 2, day 3, main lift Deadlift with no sets. -/
theorem convertDay_empty_witness :
    emptyDaySpec { Week := 2, DayNum := 3, MainLift := "Deadlift", Sets := [] }
      [] :=
  convertDay_empty _ _ rfl

/-! ### Helper lemmas about the client response handlers -/

/-- The templates listing yields the API error exactly on a non-200 status. -/
theorem getTemplatesPage_apiError_iff (resp : HttpResponse)
    (decT : String → Option ExerciseTemplatesResponse) :
    getTemplatesPage resp decT =
        Except.error (ClientError.apiError resp.status resp.body)
      ↔ resp.status ≠ 200 := by
  unfold getTemplatesPage
  by_cases hs : resp.status = 200
  · rw [if_neg (by simp [hs])]
    cases hdec : decT resp.body <;> simp [hdec, hs]
  · rw [if_pos hs]
    simp [hs]

/-- The folders listing yields the API error exactly on a non-200 status. -/
theorem getFoldersPage_apiError_iff (resp : HttpResponse)
    (decFs : String → Option FoldersResponse) :
    getFoldersPage resp decFs =
        Except.error (ClientError.apiError resp.status resp.body)
      ↔ resp.status ≠ 200 := by
  unfold getFoldersPage
  by_cases hs : resp.status = 200
  · rw [if_neg (by simp [hs])]
    cases hdec : decFs resp.body <;> simp [hdec, hs]
  · rw [if_pos hs]
    simp [hs]

/-- The routines listing yields the API error exactly on a non-200 status. -/
theorem getRoutinesPage_apiError_iff (resp : HttpResponse)
    (decRs : String → Option RoutinesResponse) :
    getRoutinesPage resp decRs =
        Except.error (ClientError.apiError resp.status resp.body)
      ↔ resp.status ≠ 200 := by
  unfold getRoutinesPage
  by_cases hs : resp.status = 200
  · rw [if_neg (by simp [hs])]
    cases hdec : decRs resp.body <;> simp [hdec, hs]
  · rw [if_pos hs]
    simp [hs]

/-- Routine update yields the API error exactly on a non-200 status. -/
theorem updateRoutineHandle_apiError_iff (routine : CreateRoutineRequest)
    (resp : HttpResponse) (decR : String → Option Routine) :
    updateRoutineHandle routine resp decR =
        Except.error (ClientError.apiError resp.status resp.body)
      ↔ resp.status ≠ 200 := by
  unfold updateRoutineHandle
  by_cases hs : resp.status = 200
  · rw [if_neg (by simp [hs])]
    cases hdec : decR resp.body <;> simp [hdec, hs]
  · rw [if_pos hs]
    simp [hs]

/-- Routine creation yields the API error exactly when the status is neither
200 nor 201. -/
theorem createRoutineHandle_apiError_iff (routine : CreateRoutineRequest)
    (resp : HttpResponse) (decR : String → Option Routine) :
    createRoutineHandle routine resp decR =
        Except.error (ClientError.apiError resp.status resp.body)
      ↔ (resp.status ≠ 200 ∧ resp.status ≠ 201) := by
  unfold createRoutineHandle
  by_cases hs : resp.status ≠ 201 ∧ resp.status ≠ 200
  · rw [if_pos hs]
    simp [hs.1, hs.2]
  · rw [if_neg hs]
    cases hdec : decR resp.body with
    | none =>
      simp only [hdec]
      constructor
      · intro h
        simp at h
      · intro h
        exact absurd ⟨h.2, h.1⟩ hs
    | some r =>
      simp only [hdec]
      constructor
      · intro h
        simp at h
      · intro h
        exact absurd ⟨h.2, h.1⟩ hs

/-- Folder creation yields the API error exactly when the status is neither
200 nor 201. -/
theorem createFolderHandle_apiError_iff (title : String)
    (resp : HttpResponse) (decF : String → Option Folder) :
    createFolderHandle title resp decF =
        Except.error (ClientError.apiError resp.status resp.body)
      ↔ (resp.status ≠ 200 ∧ resp.status ≠ 201) := by
  unfold createFolderHandle
  by_cases hs : resp.status ≠ 201 ∧ resp.status ≠ 200
  · rw [if_pos hs]
    simp [hs.1, hs.2]
  · rw [if_neg hs]
    cases hdec : decF resp.body with
    | none =>
      simp only [hdec]
      constructor
      · intro h
        simp at h
      · intro h
        exact absurd ⟨h.2, h.1⟩ hs
    | some f =>
      simp only [hdec]
      constructor
      · intro h
        simp at h
      · intro h
        exact absurd ⟨h.2, h.1⟩ hs

/-! ### Claim theorems: client error handling -/

/-- Counterexample to C4 as stated: folder creation with a success status
and a failing decode of the echoed folder reports an error instead of
succeeding with a title-only resource. -/
theorem createFolder_decode_failure_errors :
    createFolderHandle "531 BBB Week 1" { status := 200, body := "garbled" }
        (fun _ => none) =
      Except.error (ClientError.decodeFailure "failed to decode folder response") :=
  rfl

/-- Claim C4, amended: on a success status with a failing decode of the
echoed resource, routine creation and routine update still succeed with a
resource carrying only the title, while folder creation fails with a decode
error. -/
theorem decode_tolerance_amended (resp : HttpResponse) :
    decodeToleranceSpec resp := by
  intro routine dec decF title
  refine ⟨?_, ?_, ?_⟩
  · intro hs hd
    rcases hs with h | h <;>
      · unfold createRoutineHandle
        rw [if_neg (by simp [h]), hd]
  · intro hs hd
    unfold updateRoutineHandle
    rw [if_neg (by simp [hs]), hd]
  · intro hs hd
    rcases hs with h | h <;>
      · unfold createFolderHandle
        rw [if_neg (by simp [h]), hd]

/-- Witness for the amended C4, at status 200 with an always-failing
decoder. -/
theorem decode_tolerance_amended_witness :
    createRoutineHandle
        { Title := "R", FolderID := some 5, Notes := none, Exercises := [] }
        { status := 200, body := "garbled" } (fun _ => none) =
      Except.ok { ID := "", Title := "R" } ∧
    updateRoutineHandle
        { Title := "R", FolderID := none, Notes := none, Exercises := [] }
        { status := 200, body := "garbled" } (fun _ => none) =
      Except.ok { ID := "", Title := "R" } ∧
    createFolderHandle "531 BBB Week 1" { status := 200, body := "garbled" }
        (fun _ => none) =
      Except.error (ClientError.decodeFailure "failed to decode folder response") :=
  ⟨(decode_tolerance_amended { status := 200, body := "garbled" }
      { Title := "R", FolderID := some 5, Notes := none, Exercises := [] }
      (fun _ => none) (fun _ => none) "531 BBB Week 1").1 (Or.inl rfl) rfl,
   (decode_tolerance_amended { status := 200, body := "garbled" }
      { Title := "R", FolderID := none, Notes := none, Exercises := [] }
      (fun _ => none) (fun _ => none) "531 BBB Week 1").2.1 rfl rfl,
   (decode_tolerance_amended { status := 200, body := "garbled" }
      { Title := "R", FolderID := some 5, Notes := none, Exercises := [] }
      (fun _ => none) (fun _ => none) "531 BBB Week 1").2.2 (Or.inl rfl) rfl⟩

/-- Counterexample to C9 as stated: folder creation also accepts status 201,
so 201 is not accepted only for routine creation. -/
theorem createFolder_accepts_201 :
    createFolderHandle "531 BBB Week 1" { status := 201, body := "" }
        (fun _ => some { ID := 42, Title := "531 BBB Week 1" }) =
      Except.ok { ID := 42, Title := "531 BBB Week 1" } :=
  rfl

/-- Claim C9, amended: every operation fails with an error carrying the
status and body exactly when the status is outside its accepted set; the
listings and routine update accept only 200, while routine creation and
folder creation accept 200 and 201. -/
theorem status_codes_amended (resp : HttpResponse) : statusCodeSpec resp :=
  fun decT decFs decRs decR decF routine title =>
    ⟨getTemplatesPage_apiError_iff resp decT,
     getFoldersPage_apiError_iff resp decFs,
     getRoutinesPage_apiError_iff resp decRs,
     updateRoutineHandle_apiError_iff routine resp decR,
     createRoutineHandle_apiError_iff routine resp decR,
     createFolderHandle_apiError_iff title resp decF⟩

/-- Witness for the amended C9, at a concrete 404 response. -/
theorem status_codes_amended_witness :
    statusCodeSpec { status := 404, body := "not found" } :=
  status_codes_amended _

/-! ### Claim theorems: exercise resolution -/

/-- `findSome?` returns the image of the first element with a `some` image. -/
theorem findSome?_first_some {α β : Type} (f : α → Option β) (pre : List α)
    (a : α) (post : List α) (t : β) (hpre : ∀ x, x ∈ pre → f x = none)
    (ha : f a = some t) : List.findSome? f (pre ++ a :: post) = some t := by
  induction pre with
  | nil => simp [List.findSome?_cons, ha]
  | cons x xs ih =>
    have hx := hpre x (by simp)
    rw [List.cons_append, List.findSome?_cons]
    simp only [hx]
    exact ih (fun y hy => hpre y (by simp [hy]))

/-- Claim C5: `FindTemplate` resolves by exact case-insensitive match first,
then by the first catalog-present alias of the alias table's entry, then by
a case-insensitive substring match (some qualifying entry), and fails with
an error naming the exercise exactly when all three stages miss. -/
theorem findTemplate_resolution (m : List (String × ExerciseTemplate))
    (name : String) : resolveSpec m name := by
  refine ⟨?_, ?_, ?_, ?_⟩
  · intro t h
    simp [FindTemplate, h]
  · intro h0 pre a post hal hpre t ht
    simp only [FindTemplate, h0, aliasFor] at *
    rw [hal, Option.some_bind, findSome?_first_some _ pre a post t hpre ht]
  · intro h0 halias hex
    have hbind : (aliasFor name.toLower).bind
        (fun aliases => aliases.findSome? (fun a => mapLookup m a)) = none := by
      cases haf : aliasFor name.toLower with
      | none => rfl
      | some al =>
        rw [Option.some_bind]
        exact List.findSome?_eq_none_iff.mpr (fun a ha => halias al haf a ha)
    obtain ⟨p, hpm, hps⟩ := hex
    have hfind : m.find? (fun p => strContains p.1 name.toLower
        || strContains name.toLower p.1) ≠ none := by
      intro hnone
      have := List.find?_eq_none.mp hnone p hpm
      rcases hps with h | h <;> simp [h] at this
    cases hq : m.find? (fun p => strContains p.1 name.toLower
        || strContains name.toLower p.1) with
    | none => exact absurd hq hfind
    | some q =>
      refine ⟨q.2, ?_, q.1, ?_, ?_⟩
      · simp only [FindTemplate, h0, hbind, hq]
      · exact List.mem_of_find?_eq_some hq
      · have := List.find?_some hq
        simpa using this
  · constructor
    · intro h
      cases h1 : mapLookup m name.toLower with
      | some t => simp [FindTemplate, h1] at h
      | none =>
        cases h2 : (aliasFor name.toLower).bind
            (fun aliases => aliases.findSome? (fun a => mapLookup m a)) with
        | some t => simp [FindTemplate, h1, h2] at h
        | none =>
          cases h3 : m.find? (fun p => strContains p.1 name.toLower
              || strContains name.toLower p.1) with
          | some q => simp [FindTemplate, h1, h2, h3] at h
          | none =>
            refine ⟨rfl, ?_, ?_⟩
            · intro al hal a ha
              rw [hal, Option.some_bind] at h2
              exact List.findSome?_eq_none_iff.mp h2 a ha
            · intro p hp
              have := List.find?_eq_none.mp h3 p hp
              constructor
              · rcases hc1 : strContains p.1 name.toLower with - | -
                · rfl
                · simp [hc1] at this
              · rcases hc2 : strContains name.toLower p.1 with - | -
                · rfl
                · simp [hc2] at this
    · rintro ⟨h1, h2, h3⟩
      have hbind : (aliasFor name.toLower).bind
          (fun aliases => aliases.findSome? (fun a => mapLookup m a)) = none := by
        cases haf : aliasFor name.toLower with
        | none => rfl
        | some al =>
          rw [Option.some_bind]
          exact List.findSome?_eq_none_iff.mpr (fun a ha => h2 al haf a ha)
      have hfind : m.find? (fun p => strContains p.1 name.toLower
          || strContains name.toLower p.1) = none := by
        refine List.find?_eq_none.mpr (fun p hp => ?_)
        obtain ⟨hl, hr⟩ := h3 p hp
        simp [hl, hr]
      simp [FindTemplate, h1, hbind, hfind]

/-- Witness for C5: the spec's own example, resolving "Squat" through the
alias table against a catalog holding only "Barbell Squat". -/
theorem findTemplate_resolution_witness :
    resolveSpec
      (NewExerciseMapper
        [{ ID := "id1", Title := "Barbell Squat", Type' := "barbell",
           PrimaryMuscleGroup := "quadriceps", IsCustom := false }])
      "Squat" :=
  findTemplate_resolution _ _

/-! ### Helper lemmas about the orchestrator -/

/-- Characterization of a run of the retry loop started at `attempt` with
`rem` iterations left (`attempt + rem = 5`): it stops at the first attempt
`k` satisfying the break condition (or at attempt 4), returns attempt `k`'s
outcome, and its trace is the concatenation of the per-attempt steps. -/
theorem syncOneAux_run (i : Nat) (ex : Option String)
    (r : CreateRoutineRequest) (op : Nat → Option String) :
    ∀ rem attempt, 0 < rem → attempt + rem = 5 →
    ∃ k, attempt ≤ k ∧ k ≤ 4 ∧
      (∀ j, attempt ≤ j → j < k → stopCond (op j) = false) ∧
      (stopCond (op k) = true ∨ k = 4) ∧
      syncOneAux i ex r op attempt rem =
        (op k, (List.range' attempt (k + 1 - attempt)).flatMap (retryStep i ex r)) := by
  intro rem
  induction rem with
  | zero => intro attempt h1 h2; exact absurd h1 (by omega)
  | succ n ih =>
    intro attempt h1 hsum
    by_cases hn : n = 0
    · have ha : attempt = 4 := by omega
      subst ha
      subst hn
      refine ⟨4, le_refl 4, le_refl 4, fun j hj1 hj2 => by omega, Or.inr rfl, ?_⟩
      simp [syncOneAux, retryStep, List.range'_one]
    · by_cases hstop : stopCond (op attempt) = true
      · refine ⟨attempt, le_refl _, by omega,
          fun j hj1 hj2 => by omega, Or.inl hstop, ?_⟩
        have hone : attempt + 1 - attempt = 1 := by omega
        rw [hone, List.range'_one]
        simp [syncOneAux, hn, hstop, retryStep]
      · obtain ⟨k, hk1, hk2, hk3, hk4, hk5⟩ :=
          ih (attempt + 1) (by omega) (by omega)
        refine ⟨k, by omega, hk2, ?_, hk4, ?_⟩
        · intro j hj1 hj2
          rcases Nat.eq_or_lt_of_le hj1 with rfl | hlt
          · exact Bool.eq_false_iff.mpr hstop
          · exact hk3 j hlt hj2
        · have hsplit : k + 1 - attempt = (k + 1 - (attempt + 1)) + 1 := by omega
          rw [hsplit, List.range'_succ, List.flatMap_cons]
          simp only [syncOneAux, hn, if_false, hstop]
          rw [hk5]
          simp [retryStep, List.append_assoc, hn]

/-- Every event in a (top-level) retry-loop trace is the routine operation
itself or a backoff sleep. -/
theorem syncOneAux_events (i : Nat) (ex : Option String)
    (r : CreateRoutineRequest) (op : Nat → Option String) (e : SyncEvent)
    (h : e ∈ (syncOneAux i ex r op 0 5).2) :
    e = syncOpEvent i ex r ∨ ∃ n, e = SyncEvent.sleepSecs n := by
  obtain ⟨k, -, -, -, -, hk5⟩ := syncOneAux_run i ex r op 5 0 (by omega) (by omega)
  rw [hk5] at h
  simp only [List.mem_flatMap] at h
  obtain ⟨a, -, ha⟩ := h
  unfold retryStep at ha
  rcases List.mem_append.mp ha with h1 | h1
  · by_cases h0 : 0 < a
    · rw [if_pos h0] at h1
      simp at h1
      exact Or.inr ⟨_, h1⟩
    · rw [if_neg h0] at h1
      simp at h1
  · simp at h1
    exact Or.inl h1

/-- The routine operation itself always appears in the (top-level)
retry-loop trace. -/
theorem syncOneAux_self_mem (i : Nat) (ex : Option String)
    (r : CreateRoutineRequest) (op : Nat → Option String) :
    syncOpEvent i ex r ∈ (syncOneAux i ex r op 0 5).2 := by
  obtain ⟨k, -, -, -, -, hk5⟩ := syncOneAux_run i ex r op 5 0 (by omega) (by omega)
  rw [hk5]
  simp only [List.mem_flatMap]
  refine ⟨0, ?_, ?_⟩
  · have : k + 1 - 0 = k + 1 := by omega
    rw [this]
    simp [List.mem_range']
  · simp [retryStep]

/-- A successful folder-setup pass returns the weeks paired with their
expected folder IDs and emits exactly the expected check/create trace. -/
theorem setupFoldersAux_ok (fm : List (String × Int))
    (cf : String → Except String Folder) :
    ∀ ws l tr, setupFoldersAux fm cf ws = (Except.ok l, tr) →
      l = ws.map (fun w => (w, expectedFolderID fm cf w)) ∧
      tr = setupTrace fm ws := by
  intro ws
  induction ws with
  | nil =>
    intro l tr h
    simp only [setupFoldersAux, Prod.mk.injEq, Except.ok.injEq] at h
    obtain ⟨h1, h2⟩ := h
    subst h1
    subst h2
    simp [setupTrace]
  | cons w ws ih =>
    intro l tr h
    simp only [setupFoldersAux] at h
    cases hm : mapLookup fm (weekFolderName w) with
    | some fid =>
      rw [hm] at h
      rcases hrec : setupFoldersAux fm cf ws with ⟨res, tr2⟩
      rw [hrec] at h
      cases res with
      | error e => simp at h
      | ok l2 =>
        simp only [Prod.mk.injEq, Except.ok.injEq] at h
        obtain ⟨h1, h2⟩ := h
        obtain ⟨hl2, htr2⟩ := ih l2 tr2 hrec
        subst h1
        subst h2
        rw [hl2, htr2]
        constructor
        · simp [expectedFolderID, hm]
        · simp [setupTrace, hm]
    | none =>
      rw [hm] at h
      cases hcf : cf (weekFolderName w) with
      | error e =>
        rw [hcf] at h
        simp at h
      | ok f =>
        rw [hcf] at h
        rcases hrec : setupFoldersAux fm cf ws with ⟨res, tr2⟩
        rw [hrec] at h
        cases res with
        | error e => simp at h
        | ok l2 =>
          simp only [Prod.mk.injEq, Except.ok.injEq] at h
          obtain ⟨h1, h2⟩ := h
          obtain ⟨hl2, htr2⟩ := ih l2 tr2 hrec
          subst h1
          subst h2
          rw [hl2, htr2]
          constructor
          · simp [expectedFolderID, hm, hcf]
          · simp [setupTrace, hm]

/-- Every event of the folder-setup pass is a folder event. -/
theorem setupFoldersAux_events (fm : List (String × Int))
    (cf : String → Except String Folder) :
    ∀ ws e, e ∈ (setupFoldersAux fm cf ws).2 →
      isFolderEvent e = true ∧ folderFieldOK e := by
  intro ws
  induction ws with
  | nil =>
    intro e h
    simp [setupFoldersAux] at h
  | cons w ws ih =>
    intro e h
    simp only [setupFoldersAux] at h
    cases hm : mapLookup fm (weekFolderName w) with
    | some fid =>
      rw [hm] at h
      rcases hrec : setupFoldersAux fm cf ws with ⟨res, tr2⟩
      rw [hrec] at h
      have htail : ∀ e2, e2 ∈ tr2 → isFolderEvent e2 = true ∧ folderFieldOK e2 :=
        fun e2 he2 => ih e2 (by rw [hrec]; exact he2)
      cases res with
      | error e0 =>
        simp only [List.mem_cons] at h
        rcases h with h | h
        · subst h
          exact ⟨rfl, trivial⟩
        · exact htail e h
      | ok l2 =>
        simp only [List.mem_cons] at h
        rcases h with h | h
        · subst h
          exact ⟨rfl, trivial⟩
        · exact htail e h
    | none =>
      rw [hm] at h
      cases hcf : cf (weekFolderName w) with
      | error e0 =>
        rw [hcf] at h
        simp only [List.mem_cons, List.mem_singleton] at h
        rcases h with h | h | h
        · subst h
          exact ⟨rfl, trivial⟩
        · subst h
          exact ⟨rfl, trivial⟩
        · simp at h
      | ok f =>
        rw [hcf] at h
        rcases hrec : setupFoldersAux fm cf ws with ⟨res, tr2⟩
        rw [hrec] at h
        have htail : ∀ e2, e2 ∈ tr2 → isFolderEvent e2 = true ∧ folderFieldOK e2 :=
          fun e2 he2 => ih e2 (by rw [hrec]; exact he2)
        cases res with
        | error e0 =>
          simp only [List.mem_cons] at h
          rcases h with h | h | h
          · subst h
            exact ⟨rfl, trivial⟩
          · subst h
            exact ⟨rfl, trivial⟩
          · exact htail e h
        | ok l2 =>
          simp only [List.mem_cons] at h
          rcases h with h | h | h
          · subst h
            exact ⟨rfl, trivial⟩
          · subst h
            exact ⟨rfl, trivial⟩
          · exact htail e h

/-- Every event of the routine-sync loop is a routine operation keeping the
folder-reference invariant, or a sleep; in particular none is a folder
event. -/
theorem syncRoutinesAux_events (rm : List (String × String))
    (wf : List (Nat × Int)) (op : Nat → Nat → Option String) :
    ∀ rs idx e, e ∈ (syncRoutinesAux rm wf op idx rs).2 →
      isFolderEvent e = false ∧ folderFieldOK e := by
  intro rs
  induction rs with
  | nil =>
    intro idx e h
    simp [syncRoutinesAux] at h
  | cons r rs ih =>
    intro idx e h
    simp only [syncRoutinesAux] at h
    rcases hOne : syncOneAux idx (mapLookup rm r.Title)
        { r with FolderID := some ((natLookup wf (idx / 4 + 1)).getD 0) }
        (op idx) 0 5 with ⟨err, trOne⟩
    rw [hOne] at h
    have honeev : ∀ e2, e2 ∈ trOne → isFolderEvent e2 = false ∧ folderFieldOK e2 := by
      intro e2 he2
      have hshape := syncOneAux_events idx (mapLookup rm r.Title)
        { r with FolderID := some ((natLookup wf (idx / 4 + 1)).getD 0) }
        (op idx) e2 (by rw [hOne]; exact he2)
      rcases hshape with h1 | ⟨n, h1⟩
      · subst h1
        cases hex : mapLookup rm r.Title with
        | some id =>
          refine ⟨by simp [syncOpEvent, hex, isFolderEvent], ?_⟩
          simp [syncOpEvent, hex, folderFieldOK]
        | none =>
          refine ⟨by simp [syncOpEvent, hex, isFolderEvent], ?_⟩
          simp only [syncOpEvent, hex, folderFieldOK]
          exact ⟨_, rfl⟩
      · subst h1
        exact ⟨rfl, trivial⟩
    cases err with
    | some e0 => exact honeev e h
    | none =>
      rcases hrec : syncRoutinesAux rm wf op (idx + 1) rs with ⟨res, trRest⟩
      rw [hrec] at h
      have htail : ∀ e2, e2 ∈ trRest → isFolderEvent e2 = false ∧ folderFieldOK e2 :=
        fun e2 he2 => ih (idx + 1) e2 (by rw [hrec]; exact he2)
      have hmem : e ∈ trOne ++ [SyncEvent.sleepMs 300] ++ trRest →
          isFolderEvent e = false ∧ folderFieldOK e := by
        intro hm2
        rcases List.mem_append.mp hm2 with h1 | h1
        · rcases List.mem_append.mp h1 with h2 | h2
          · exact honeev e h2
          · simp only [List.mem_singleton] at h2
            subst h2
            exact ⟨rfl, trivial⟩
        · exact htail e h1
      cases res with
      | error e0 => exact hmem h
      | ok cu =>
        rcases cu with ⟨c, u⟩
        cases hex : mapLookup rm r.Title with
        | some id =>
          rw [hex] at h
          exact hmem h
        | none =>
          rw [hex] at h
          exact hmem h

/-- A successful routine-sync run reports exactly the numbers of title-hits
(updated) and title-misses (created), and its trace holds, for each payload
by input position, the update under the existing ID (folder cleared) when
the title is in the map and otherwise the create carrying the folder of week
`index / 4 + 1`. -/
theorem syncRoutinesAux_ok (rm : List (String × String))
    (wf : List (Nat × Int)) (op : Nat → Nat → Option String) :
    ∀ rs idx c u tr, syncRoutinesAux rm wf op idx rs = (Except.ok (c, u), tr) →
      u = (rs.filter (fun r => (mapLookup rm r.Title).isSome)).length ∧
      c = (rs.filter (fun r => (mapLookup rm r.Title).isNone)).length ∧
      (∀ j (hj : j < rs.length),
        (mapLookup rm (rs.get ⟨j, hj⟩).Title = none →
          SyncEvent.routineCreate (idx + j)
            { rs.get ⟨j, hj⟩ with
              FolderID := some ((natLookup wf ((idx + j) / 4 + 1)).getD 0) } ∈ tr) ∧
        (∀ id, mapLookup rm (rs.get ⟨j, hj⟩).Title = some id →
          SyncEvent.routineUpdate (idx + j) id
            { rs.get ⟨j, hj⟩ with FolderID := none } ∈ tr)) := by
  intro rs
  induction rs with
  | nil =>
    intro idx c u tr h
    simp only [syncRoutinesAux, Prod.mk.injEq, Except.ok.injEq] at h
    obtain ⟨⟨h1, h2⟩, h3⟩ := h
    subst h1
    subst h2
    subst h3
    refine ⟨rfl, rfl, ?_⟩
    intro j hj
    exact absurd hj (by simp)
  | cons r rs ih =>
    intro idx c u tr h
    simp only [syncRoutinesAux] at h
    rcases hOne : syncOneAux idx (mapLookup rm r.Title)
        { r with FolderID := some ((natLookup wf (idx / 4 + 1)).getD 0) }
        (op idx) 0 5 with ⟨err, trOne⟩
    rw [hOne] at h
    have hself := syncOneAux_self_mem idx (mapLookup rm r.Title)
      { r with FolderID := some ((natLookup wf (idx / 4 + 1)).getD 0) } (op idx)
    rw [hOne] at hself
    cases err with
    | some e0 => simp at h
    | none =>
      rcases hrec : syncRoutinesAux rm wf op (idx + 1) rs with ⟨res, trRest⟩
      rw [hrec] at h
      cases res with
      | error e0 => simp at h
      | ok cu =>
        rcases cu with ⟨c2, u2⟩
        obtain ⟨hu2, hc2, hmem⟩ := ih (idx + 1) c2 u2 trRest hrec
        have hstep : ∀ j (hj : j < rs.length),
            (mapLookup rm (rs.get ⟨j, hj⟩).Title = none →
              SyncEvent.routineCreate (idx + (j + 1))
                { rs.get ⟨j, hj⟩ with
                  FolderID := some ((natLookup wf ((idx + (j + 1)) / 4 + 1)).getD 0) }
                  ∈ trRest) ∧
            (∀ id, mapLookup rm (rs.get ⟨j, hj⟩).Title = some id →
              SyncEvent.routineUpdate (idx + (j + 1)) id
                { rs.get ⟨j, hj⟩ with FolderID := none } ∈ trRest) := by
          intro j hj
          have hadd : idx + 1 + j = idx + (j + 1) := by omega
          have hmj := hmem j hj
          rw [hadd] at hmj
          exact hmj
        cases hex : mapLookup rm r.Title with
        | some id =>
          rw [hex] at h
          simp only [Prod.mk.injEq, Except.ok.injEq] at h
          obtain ⟨⟨h1, h2⟩, h3⟩ := h
          subst h1
          subst h2
          subst h3
          refine ⟨?_, ?_, ?_⟩
          · rw [List.filter_cons]
            simp [hex, hu2]
          · rw [List.filter_cons]
            simp [hex, hc2]
          · intro j hj
            cases j with
            | zero =>
              constructor
              · intro hnone
                have hnone2 : mapLookup rm r.Title = none := hnone
                rw [hex] at hnone2
                exact absurd hnone2 (by simp)
              · intro id2 hid
                have hid2 : mapLookup rm r.Title = some id2 := hid
                rw [hex] at hid2
                have hidEq : id = id2 := by injection hid2
                subst hidEq
                have hself2 : SyncEvent.routineUpdate idx id
                    { r with FolderID := none } ∈ trOne := by
                  have h4 : syncOpEvent idx (mapLookup rm r.Title)
                      { r with FolderID := some ((natLookup wf (idx / 4 + 1)).getD 0) }
                      ∈ trOne := hself
                  rw [hex] at h4
                  exact h4
                exact List.mem_append.mpr (Or.inl (List.mem_append.mpr (Or.inl hself2)))
            | succ j2 =>
              have hj2 : j2 < rs.length := by
                simp at hj
                omega
              constructor
              · intro hnone
                have hnone2 : mapLookup rm (rs.get ⟨j2, hj2⟩).Title = none := hnone
                exact List.mem_append.mpr (Or.inr ((hstep j2 hj2).1 hnone2))
              · intro id2 hid
                have hid2 : mapLookup rm (rs.get ⟨j2, hj2⟩).Title = some id2 := hid
                exact List.mem_append.mpr (Or.inr ((hstep j2 hj2).2 id2 hid2))
        | none =>
          rw [hex] at h
          simp only [Prod.mk.injEq, Except.ok.injEq] at h
          obtain ⟨⟨h1, h2⟩, h3⟩ := h
          subst h1
          subst h2
          subst h3
          refine ⟨?_, ?_, ?_⟩
          · rw [List.filter_cons]
            simp [hex, hu2]
          · rw [List.filter_cons]
            simp [hex, hc2]
          · intro j hj
            cases j with
            | zero =>
              constructor
              · intro hnone
                have hself2 : SyncEvent.routineCreate idx
                    { r with FolderID := some ((natLookup wf (idx / 4 + 1)).getD 0) }
                      ∈ trOne := by
                  have h4 : syncOpEvent idx (mapLookup rm r.Title)
                      { r with FolderID := some ((natLookup wf (idx / 4 + 1)).getD 0) }
                      ∈ trOne := hself
                  rw [hex] at h4
                  exact h4
                exact List.mem_append.mpr (Or.inl (List.mem_append.mpr (Or.inl hself2)))
              · intro id2 hid
                have hid2 : mapLookup rm r.Title = some id2 := hid
                rw [hex] at hid2
                exact absurd hid2 (by simp)
            | succ j2 =>
              have hj2 : j2 < rs.length := by
                simp at hj
                omega
              constructor
              · intro hnone
                have hnone2 : mapLookup rm (rs.get ⟨j2, hj2⟩).Title = none := hnone
                exact List.mem_append.mpr (Or.inr ((hstep j2 hj2).1 hnone2))
              · intro id2 hid
                have hid2 : mapLookup rm (rs.get ⟨j2, hj2⟩).Title = some id2 := hid
                exact List.mem_append.mpr (Or.inr ((hstep j2 hj2).2 id2 hid2))

/-! ### Claim theorems: orchestrator -/

/-- Claim C2: per routine, the retry loop makes at most 5 attempts, sleeps
`10 * 2 ^ a` seconds before every attempt `a > 0` (20s, 40s, 80s, 160s),
stops at the first success or non-rate-limit error, detects rate limits
exactly by the case-sensitive substrings "429" / "rate limit" of a non-nil
error, and a surviving error aborts the whole sync. -/
theorem retry_policy (i : Nat) (existingID : Option String)
    (routine : CreateRoutineRequest) (op : Nat → Option String) :
    retryPolicySpec i existingID routine op := by
  refine ⟨?_, ?_, ?_, ?_⟩
  · obtain ⟨k, -, hk2, hk3, hk4, hk5⟩ :=
      syncOneAux_run i existingID routine op 5 0 (by omega) (by omega)
    refine ⟨k, hk2, fun j hj => hk3 j (Nat.zero_le j) hj, hk4, ?_⟩
    rw [hk5]
    rw [retryTrace, List.range_eq_range']
    simp
  · intro e
    cases e with
    | none => simp [isRateLimitError]
    | some s => simp [isRateLimitError]
  · intro e
    cases e with
    | none => simp [stopCond, isRateLimitError]
    | some s => simp [stopCond, isRateLimitError]
  · intro rm wf ops rs e h
    rcases hOne : syncOneAux i (mapLookup rm routine.Title)
        { routine with FolderID := some ((natLookup wf (i / 4 + 1)).getD 0) }
        (ops i) 0 5 with ⟨err, trOne⟩
    rw [hOne] at h
    simp only at h
    subst h
    simp [syncRoutinesAux, hOne]

/-- Witness for C2: two rate-limited attempts followed by a success. -/
theorem retry_policy_witness :
    retryPolicySpec 3 none
      { Title := "T", FolderID := some 1, Notes := none, Exercises := [] }
      (fun a => if a < 2 then some "API error (status 429): slow down" else none) :=
  retry_policy _ _ _ _

/-- Claim C3: every routine operation the orchestrator sends keeps the
folder-reference invariant: updates carry no folder reference, creates
carry one. -/
theorem sent_folder_invariant (existingFolders : List Folder)
    (existingRoutines : List RoutineFull)
    (routines : List CreateRoutineRequest)
    (createFolder : String → Except String Folder)
    (op : Nat → Nat → Option String) :
    sentFolderSpec existingFolders existingRoutines routines createFolder op := by
  intro e he
  rcases hsetup : setupFoldersAux (buildFolderByName existingFolders)
      createFolder [1, 2, 3, 4] with ⟨res, trS⟩
  cases res with
  | error e0 =>
    have he2 : e ∈ trS := by
      simpa [uploadSync, hsetup] using he
    exact (setupFoldersAux_events _ _ _ e (by rw [hsetup]; exact he2)).2
  | ok wf =>
    rcases hrun : syncRoutinesAux (buildRoutineByTitle existingRoutines) wf op
        0 routines with ⟨res2, trR⟩
    have he2 : e ∈ trS ++ trR := by
      simpa [uploadSync, hsetup, hrun] using he
    rcases List.mem_append.mp he2 with h1 | h1
    · exact (setupFoldersAux_events _ _ _ e (by rw [hsetup]; exact h1)).2
    · exact (syncRoutinesAux_events _ _ _ routines 0 e (by rw [hrun]; exact h1)).2

/-- Witness for C3: a mixed update/create sync against one existing folder
and one existing routine. -/
theorem sent_folder_invariant_witness :
    sentFolderSpec [{ ID := 7, Title := "531 BBB Week 2" }]
      [{ ID := "rid", Title := "T0", FolderID := none }]
      [{ Title := "T0", FolderID := none, Notes := none, Exercises := [] },
       { Title := "T1", FolderID := none, Notes := none, Exercises := [] }]
      (fun t => Except.ok { ID := 99, Title := t }) (fun _ _ => none) :=
  sent_folder_invariant _ _ _ _ _

/-- Claim C1: a successful sync reports as updated/created exactly the
payloads whose titles were present/absent in the initially fetched routine
map; its trace performs one folder-existence check per week 1..4 (creating
the folder exactly when absent) before any routine operation; and each
payload, in input order, is updated under its existing ID or created with
the folder of week `index / 4 + 1`. -/
theorem sync_report (existingFolders : List Folder)
    (existingRoutines : List RoutineFull)
    (routines : List CreateRoutineRequest)
    (createFolder : String → Except String Folder)
    (op : Nat → Nat → Option String) (c u : Nat)
    (hlen : routines.length ≤ 16)
    (h : (uploadSync existingFolders existingRoutines routines createFolder op).1 =
      Except.ok (c, u)) :
    syncReportSpec existingFolders existingRoutines routines createFolder op c u := by
  rcases hsetup : setupFoldersAux (buildFolderByName existingFolders)
      createFolder [1, 2, 3, 4] with ⟨res, trS⟩
  cases res with
  | error e0 => simp [uploadSync, hsetup] at h
  | ok wf =>
    rcases hrun : syncRoutinesAux (buildRoutineByTitle existingRoutines) wf op
        0 routines with ⟨res2, trR⟩
    cases res2 with
    | error e0 => simp [uploadSync, hsetup, hrun] at h
    | ok cu =>
      rcases cu with ⟨c2, u2⟩
      have hcu : c2 = c ∧ u2 = u := by
        simpa [uploadSync, hsetup, hrun] using h
      obtain ⟨hc2, hu2⟩ := hcu
      subst hc2
      subst hu2
      obtain ⟨hwf, htrS⟩ := setupFoldersAux_ok _ _ _ _ _ hsetup
      obtain ⟨hu, hc, hmem⟩ :=
        syncRoutinesAux_ok (buildRoutineByTitle existingRoutines) wf op
          routines 0 c2 u2 trR hrun
      refine ⟨hu, hc, trR, ?_, ?_, ?_⟩
      · simp [uploadSync, hsetup, hrun, htrS]
      · intro e he
        exact (syncRoutinesAux_events _ _ _ routines 0 e (by rw [hrun]; exact he)).1
      · intro j hj
        have hj16 : j < 16 := lt_of_lt_of_le hj hlen
        have hw : natLookup wf (j / 4 + 1) =
            some (expectedFolderID (buildFolderByName existingFolders)
              createFolder (j / 4 + 1)) := by
          subst hwf
          have h4 : j / 4 = 0 ∨ j / 4 = 1 ∨ j / 4 = 2 ∨ j / 4 = 3 := by omega
          rcases h4 with h4 | h4 | h4 | h4 <;> rw [h4] <;> rfl
        have hmj := hmem j hj
        constructor
        · intro hnone
          have hcr := hmj.1 hnone
          simp only [Nat.zero_add] at hcr
          rw [hw] at hcr
          simpa using hcr
        · intro id hid
          have hup := hmj.2 id hid
          simpa using hup

/-- Witness for C1: a 2-payload sync against one existing matching routine,
reporting one update and one create. -/
theorem sync_report_witness :
    syncReportSpec [{ ID := 7, Title := "531 BBB Week 2" }]
      [{ ID := "rid", Title := "T0", FolderID := none }]
      [{ Title := "T0", FolderID := none, Notes := none, Exercises := [] },
       { Title := "T1", FolderID := none, Notes := none, Exercises := [] }]
      (fun t => Except.ok { ID := 99, Title := t }) (fun _ _ => none) 1 1 :=
  sync_report _ _ _ _ _ 1 1 (by decide) rfl

end Hevy531
